import Mathlib

/-!
Shallow embedding of the GitVersionManager core (src/core/git_helper.py,
src/core/publisher.py, src/services/publish_service.py,
src/services/project_service.py, src/gui/workers.py).

Subprocess and HTTP interactions are modelled as explicit oracle inputs:
each embedded function takes the outcome of the external call it would
perform and computes the value the Python code would return, together with
a trace of the mutating operations it would have issued.
-/

namespace GVM

/-! ## Generic character-list utilities (used to model Python `in`, `re`) -/

/-- `beginsWith pat l` is true when `pat` is a prefix of `l`. -/
def beginsWith : List Char → List Char → Bool
  | [], _ => true
  | _ :: _, [] => false
  | p :: ps, x :: xs => if p = x then beginsWith ps xs else false

/-- `containsSeq pat l` is true when `pat` occurs contiguously inside `l`
(Python's `pat in s`). -/
def containsSeq (pat : List Char) : List Char → Bool
  | [] => beginsWith pat []
  | x :: xs => beginsWith pat (x :: xs) || containsSeq pat xs

/-- Split a list at the first occurrence of `c`, returning the parts before
and after it, or `none` when `c` does not occur. -/
def splitFirst (c : Char) : List Char → Option (List Char × List Char)
  | [] => none
  | x :: xs =>
    if x = c then some ([], xs)
    else (splitFirst c xs).map (fun p => (x :: p.1, p.2))

/-! ## GitHelper._run_git and the boolean git wrappers (src/core/git_helper.py)

`subprocess.run` with `check=True` raises `CalledProcessError` on a nonzero
exit code.  `_run_git` catches only `TimeoutExpired`, returning a synthetic
`CompletedProcess` with returncode 1; the boolean wrappers return `False`
exactly when a `CalledProcessError` escapes `_run_git`. -/

/-- Outcome of one git subprocess invocation. -/
inductive RunOutcome where
  | completed (rc : Int) (stdout stderr : String)
  | timedOut
  deriving DecidableEq, Repr

/-- The `subprocess.CompletedProcess` fields the code inspects. -/
structure CompletedProc where
  returncode : Int
  stdout : String
  stderr : String
  deriving DecidableEq, Repr

/-- `GitHelper._run_git`: returns the completed process, or raises
`CalledProcessError` (modelled as `Except.error`) when `check` is set and
the exit code is nonzero.  A timeout is caught and converted into a
synthetic failure result with returncode 1. -/
def run_git (check : Bool) (o : RunOutcome) : Except String CompletedProc :=
  match o with
  | .timedOut => .ok ⟨1, "", "Command timed out after 10s"⟩
  | .completed rc out err =>
    if check ∧ rc ≠ 0 then .error "CalledProcessError" else .ok ⟨rc, out, err⟩

/-- `GitHelper.push`: `True` unless `_run_git` raised `CalledProcessError`. -/
def push (o : RunOutcome) : Bool :=
  match run_git true o with
  | .ok _ => true
  | .error _ => false

/-- `GitHelper.pull`. -/
def pull (o : RunOutcome) : Bool :=
  match run_git true o with
  | .ok _ => true
  | .error _ => false

/-- `GitHelper.push_tags`. -/
def push_tags (o : RunOutcome) : Bool :=
  match run_git true o with
  | .ok _ => true
  | .error _ => false

/-- `GitHelper.create_tag` (one git invocation whether or not a message is
given). -/
def create_tag (o : RunOutcome) : Bool :=
  match run_git true o with
  | .ok _ => true
  | .error _ => false

/-- `GitHelper.commit` with `add_all=True`: runs `git add -A` then
`git commit -m`; `False` when either raises. -/
def commit (addO commitO : RunOutcome) : Bool :=
  match run_git true addO with
  | .error _ => false
  | .ok _ =>
    match run_git true commitO with
    | .ok _ => true
    | .error _ => false

/-- Whether the underlying git command actually succeeded. -/
def gitSucceeded (o : RunOutcome) : Bool :=
  match o with
  | .completed rc _ _ => rc = 0
  | .timedOut => false

/-! ## rev-list parsing: is_ahead_of_remote, get_remote_status, get_quick_status

The stdout of `git rev-list --left-right --count` is two whitespace-separated
decimal counts; we model the already-split integer tokens of that output. -/

/-- Outcome of the rev-list count command: exit code, parsed stdout tokens,
and stripped stderr. -/
structure RevListRes where
  rc : Int
  tokens : List Int
  stderrStripped : String

/-- `GitHelper.is_ahead_of_remote`: the `(ahead, behind)` pair, or `(0, 0)`
when the command failed or its output is not exactly two fields.  The
return type carries no error indication. -/
def is_ahead_of_remote (r : RevListRes) : Int × Int :=
  if r.rc = 0 then
    match r.tokens with
    | [a, b] => (a, b)
    | _ => (0, 0)
  else (0, 0)

/-- The dict returned by `GitHelper.get_remote_status`. -/
structure RemoteStatus where
  ahead : Int
  behind : Int
  can_push : Bool
  can_pull : Bool
  error : Option String
  deriving DecidableEq, Repr

/-- `GitHelper.get_remote_status` (after the fetch): populates ahead/behind
from the rev-list output on success, otherwise records an error message. -/
def get_remote_status (r : RevListRes) : RemoteStatus :=
  if r.rc = 0 then
    match r.tokens with
    | [a, b] =>
      { ahead := a, behind := b,
        can_push := if b > 0 then false else true,
        can_pull := true, error := none }
    | _ => { ahead := 0, behind := 0, can_push := true, can_pull := true, error := none }
  else
    { ahead := 0, behind := 0, can_push := true, can_pull := true,
      error := some (if r.stderrStripped.isEmpty then "Unknown error" else r.stderrStripped) }

/-- `ProjectService.get_quick_status`: quick status string for a project. -/
def get_quick_status (pathExists isRepo hasChanges : Bool) (r : RevListRes) : String :=
  if !pathExists then "missing"
  else if !isRepo then "not_git"
  else
    let ab := is_ahead_of_remote r
    if hasChanges then "modified"
    else if ab.1 > 0 then "ahead"
    else if ab.2 > 0 then "behind"
    else "synced"

/-! ## GitHelper.parse_repo_from_url (src/core/git_helper.py, lines 208-225)

Faithful model of the two `re.search` regexes
`https?://[^/]+/([^/]+/[^/]+?)(?:\.git)?$` and
`git@[^:]+:([^/]+/[^/]+?)(?:\.git)?$`: the group tokens `[^/]+`/`[^:]+`
followed by a literal separator are forced to end at the first occurrence
of that separator; the lazy `[^/]+?` followed by `(?:\.git)?$` takes the
whole remainder minus a trailing `.git` when one can be stripped while
leaving the group nonempty; `re.search` tries start positions left to
right, anchored at end-of-string by the `$`. -/

/-- The four characters of the optional `.git` suffix. -/
def gitSuffix : List Char := ['.', 'g', 'i', 't']

/-- Match `[^/]+/([^/]+?)(?:\.git)?$` against the text after the host
separator, returning the regex group `owner/repo`. -/
def matchGroupTail (s : List Char) : Option (List Char) :=
  match splitFirst '/' s with
  | none => none
  | some (b, rest) =>
    if b = [] then none
    else if '/' ∈ rest then none
    else if rest = [] then none
    else if gitSuffix.isSuffixOf rest ∧ 4 < rest.length then
      some (b ++ '/' :: rest.take (rest.length - 4))
    else
      some (b ++ '/' :: rest)

/-- Match a nonempty host token (all characters up to the first `sep`)
followed by the group: `[^sep]+` then the separator then
`([^/]+/[^/]+?)(?:\.git)?$`. -/
def hostThenGroup (sep : Char) (r : List Char) : Option (List Char) :=
  match splitFirst sep r with
  | none => none
  | some (host, rest) => if host = [] then none else matchGroupTail rest

/-- Try the HTTPS regex at one start position: `https?://` then a nonempty
slash-free host, then the group. -/
def httpsMatchAt : List Char → Option (List Char)
  | 'h' :: 't' :: 't' :: 'p' :: 's' :: ':' :: '/' :: '/' :: r => hostThenGroup '/' r
  | 'h' :: 't' :: 't' :: 'p' :: ':' :: '/' :: '/' :: r => hostThenGroup '/' r
  | _ => none

/-- Try the SSH regex at one start position: `git@` then a nonempty
colon-free host, then the group. -/
def sshMatchAt : List Char → Option (List Char)
  | 'g' :: 'i' :: 't' :: '@' :: r => hostThenGroup ':' r
  | _ => none

/-- `re.search` with the HTTPS pattern: first start position that matches. -/
def searchHttps : List Char → Option (List Char)
  | [] => none
  | x :: xs =>
    match httpsMatchAt (x :: xs) with
    | some g => some g
    | none => searchHttps xs

/-- `re.search` with the SSH pattern. -/
def searchSsh : List Char → Option (List Char)
  | [] => none
  | x :: xs =>
    match sshMatchAt (x :: xs) with
    | some g => some g
    | none => searchSsh xs

/-- `GitHelper.parse_repo_from_url`: HTTPS regex first, then SSH. -/
def parse_repo_from_url (url : String) : Option String :=
  match searchHttps url.data with
  | some g => some (String.mk g)
  | none => (searchSsh url.data).map String.mk

/-! ## GitHelper.detect_platform_from_url (lines 227-238) -/

/-- `GitHelper.detect_platform_from_url`: lowercase the URL, then substring
checks in priority order. -/
def detect_platform_from_url (url : String) : Option String :=
  let l := url.data.map Char.toLower
  if containsSeq "github.com".data l then some "github"
  else if containsSeq "gitee.com".data l then some "gitee"
  else if containsSeq "gitea".data l || containsSeq "git.".data l then some "gitea"
  else none

/-! ## Release publishers (src/core/publisher.py)

Each `publish` is modelled as a function of the outcomes of the HTTP calls
it would perform (`get_release_by_tag`, `create_release`, `upload_asset`),
returning the result dict together with the trace of the remote actions it
performed.  A JSON field read with `.get` is modelled as an `Option`; the
`url` field of the result is `none` when the key is never assigned. -/

/-- A GitHub release object, as consumed by `GitHubPublisher.publish`
(the API supplies `html_url` on every release; `upload_url` is read with
`.get` and so modelled optional). -/
structure GHRelease where
  html_url : String
  upload_url : Option String
  deriving DecidableEq, Repr

/-- A Gitee/Gitea release object: only the `id` field is consumed. -/
structure IdRelease where
  id : Option Int
  deriving DecidableEq, Repr

/-- Python truthiness of the `id` field (`None` and `0` are falsy). -/
def idTruthy : Option Int → Bool
  | some n => n != 0
  | none => false

/-- Python truthiness of an optional string field such as `upload_url`
(`None` and `""` are falsy). -/
def strOptTruthy : Option String → Bool
  | some s => !s.isEmpty
  | none => false

/-- The result dict built by each `publish`. -/
structure PubResult where
  success : Bool
  platform : String
  repo : String
  message : String
  url : Option String
  deriving DecidableEq, Repr

/-- Remote actions a publisher can perform. -/
inductive PubAction where
  | checkExisting
  | createRelease
  | uploadAsset
  deriving DecidableEq, Repr

/-- `GitHubPublisher.publish`: check for an existing release by tag, create
the release, then upload the asset when `upload_url` and `asset_path` are
both truthy. -/
def github_publish (repo tag asset_path : String)
    (existing created : Option GHRelease) (uploadOk : Bool) :
    PubResult × List PubAction :=
  match existing with
  | some e =>
    ({ success := false, platform := "github", repo := repo,
       message := "Release " ++ tag ++ " already exists",
       url := some e.html_url }, [.checkExisting])
  | none =>
    match created with
    | none =>
      ({ success := false, platform := "github", repo := repo,
         message := "Failed to create release", url := none },
       [.checkExisting, .createRelease])
    | some r =>
      if strOptTruthy r.upload_url && !asset_path.isEmpty then
        if uploadOk then
          ({ success := true, platform := "github", repo := repo,
             message := "Release published successfully", url := some r.html_url },
           [.checkExisting, .createRelease, .uploadAsset])
        else
          ({ success := false, platform := "github", repo := repo,
             message := "Release created but asset upload failed", url := some r.html_url },
           [.checkExisting, .createRelease, .uploadAsset])
      else
        ({ success := true, platform := "github", repo := repo,
           message := "Release created (no asset)", url := some r.html_url },
         [.checkExisting, .createRelease])

/-- `GiteePublisher.publish`: same shape, but the asset upload is keyed on
the release `id`, and no `url` key is ever written to the result. -/
def gitee_publish (repo tag asset_path : String)
    (existing created : Option IdRelease) (uploadOk : Bool) :
    PubResult × List PubAction :=
  match existing with
  | some _ =>
    ({ success := false, platform := "gitee", repo := repo,
       message := "Release " ++ tag ++ " already exists", url := none },
     [.checkExisting])
  | none =>
    match created with
    | none =>
      ({ success := false, platform := "gitee", repo := repo,
         message := "Failed to create release", url := none },
       [.checkExisting, .createRelease])
    | some r =>
      if idTruthy r.id && !asset_path.isEmpty then
        if uploadOk then
          ({ success := true, platform := "gitee", repo := repo,
             message := "Release published successfully", url := none },
           [.checkExisting, .createRelease, .uploadAsset])
        else
          ({ success := false, platform := "gitee", repo := repo,
             message := "Release created but asset upload failed", url := none },
           [.checkExisting, .createRelease, .uploadAsset])
      else
        ({ success := true, platform := "gitee", repo := repo,
           message := "Release created (no asset)", url := none },
         [.checkExisting, .createRelease])

/-- `GiteaPublisher.publish`: identical control flow to Gitee against a
self-hosted base URL; no `url` key is ever written to the result. -/
def gitea_publish (repo tag asset_path : String)
    (existing created : Option IdRelease) (uploadOk : Bool) :
    PubResult × List PubAction :=
  match existing with
  | some _ =>
    ({ success := false, platform := "gitea", repo := repo,
       message := "Release " ++ tag ++ " already exists", url := none },
     [.checkExisting])
  | none =>
    match created with
    | none =>
      ({ success := false, platform := "gitea", repo := repo,
         message := "Failed to create release", url := none },
       [.checkExisting, .createRelease])
    | some r =>
      if idTruthy r.id && !asset_path.isEmpty then
        if uploadOk then
          ({ success := true, platform := "gitea", repo := repo,
             message := "Release published successfully", url := none },
           [.checkExisting, .createRelease, .uploadAsset])
        else
          ({ success := false, platform := "gitea", repo := repo,
             message := "Release created but asset upload failed", url := none },
           [.checkExisting, .createRelease, .uploadAsset])
      else
        ({ success := true, platform := "gitea", repo := repo,
           message := "Release created (no asset)", url := none },
         [.checkExisting, .createRelease])

/-! ## get_publisher and PublishService.publish_to_platforms

`publisher.py` registers `GitHubPublisher` and `GiteePublisher` with
`PublisherRegistry` at import time (the `interfaces` package is importable
because `main.py` puts `src/` on `sys.path`, so `HAS_INTERFACE` is true).
`PublisherRegistry.get` forwards its keyword arguments to the class
constructor; `GitHubPublisher.__init__` and `GiteePublisher.__init__`
accept only `token`, so a call that passes any keyword argument (such as
the `url=...` that `publish_to_platforms` always supplies) raises
`TypeError`.  Exceptions are modelled with `Except`. -/

/-- A constructed publisher instance. -/
inductive Publisher where
  | github (token : String)
  | gitee (token : String)
  | gitea (token url : String)
  deriving DecidableEq, Repr

/-- `get_publisher(platform, token, **kwargs)`; `urlKwarg = none` models a
call without the `url` keyword argument, `some u` a call with `url=u`. -/
def get_publisher (platform token : String) (urlKwarg : Option String) :
    Except String (Option Publisher) :=
  if platform = "github" then
    match urlKwarg with
    | none => .ok (some (.github token))
    | some _ => .error "TypeError: __init__() got an unexpected keyword argument"
  else if platform = "gitee" then
    match urlKwarg with
    | none => .ok (some (.gitee token))
    | some _ => .error "TypeError: __init__() got an unexpected keyword argument"
  else if platform = "gitea" then
    match urlKwarg with
    | some u => if u.isEmpty then .ok none else .ok (some (.gitea token u))
    | none => .ok none
  else .ok none

/-- The per-platform loop of `PublishService.publish_to_platforms`
(lines 270-311): `cfgToken` models `config.get_token` (empty = missing),
`projRepo` models `project.get(f"{platform}_repo", "")`, `giteaUrl`
models `config.get_gitea_url()`, and `pubOutcome` the result the
instantiated publisher's `publish` would return.  An uncaught exception
aborts the whole loop. -/
def publish_to_platforms (cfgToken projRepo : String → String)
    (giteaUrl : String) (pubOutcome : String → PubResult) :
    List String → Except String (List (String × PubResult))
  | [] => .ok []
  | p :: rest =>
    if (cfgToken p).isEmpty then
      (publish_to_platforms cfgToken projRepo giteaUrl pubOutcome rest).map
        (fun l => (p, { success := false, platform := p, repo := "",
                        message := "未配置Token", url := none }) :: l)
    else if (projRepo p).isEmpty then
      (publish_to_platforms cfgToken projRepo giteaUrl pubOutcome rest).map
        (fun l => (p, { success := false, platform := p, repo := "",
                        message := "未配置仓库", url := none }) :: l)
    else
      match get_publisher p (cfgToken p)
          (some (if p = "gitea" then giteaUrl else "")) with
      | .error e => .error e
      | .ok none => publish_to_platforms cfgToken projRepo giteaUrl pubOutcome rest
      | .ok (some _) =>
        (publish_to_platforms cfgToken projRepo giteaUrl pubOutcome rest).map
          (fun l => (p, pubOutcome p) :: l)

/-! ## push_all and commit_and_push_all
(src/gui/workers.py SyncOperationWorker.run, and
src/services/publish_service.py PublishService.commit_and_push_all)

Push outcomes are an oracle `pushOk : String → Bool` giving the boolean
result of `git.push(name, branch)` for each remote name.  Mutating git
operations are recorded in a trace. -/

/-- A mutating git operation issued by the workflow. -/
inductive GitMutation where
  | addAll
  | commitMut
  | pushMut (remote : String)
  deriving DecidableEq, Repr

/-- The `push_all` branch of `SyncOperationWorker.run` (workers.py
lines 503-522): pushes to every remote sequentially, then emits
`(success_count == len(remotes), message)`. -/
def worker_push_all (remotes : List String) (pushOk : String → Bool) :
    (Bool × String) × List GitMutation :=
  let cnt := (remotes.filter pushOk).length
  ((decide (cnt = remotes.length),
    "完成 " ++ toString cnt ++ "/" ++ toString remotes.length),
   remotes.map GitMutation.pushMut)

/-- The result dict of `PublishService.commit_and_push_all`. -/
structure CommitPushResult where
  success : Bool
  committed : Bool
  push_results : List (String × Bool)
  message : String
  deriving DecidableEq, Repr

/-- `PublishService.commit_and_push_all` (publish_service.py lines
137-217): guards on `is_git_repo` and `has_local_changes`, stages,
commits, then pushes to every remote; `addRaises` models an exception from
the staging `_run_git(["add", "-A"])` call, `commitOk` the boolean result
of `git.commit(message)`. -/
def commit_and_push_all (isRepo hasChanges addRaises commitOk : Bool)
    (remotes : List String) (pushOk : String → Bool) :
    CommitPushResult × List GitMutation :=
  if !isRepo then
    ({ success := false, committed := false, push_results := [],
       message := "不是 Git 仓库" }, [])
  else if !hasChanges then
    ({ success := false, committed := false, push_results := [],
       message := "没有需要提交的修改" }, [])
  else if addRaises then
    ({ success := false, committed := false, push_results := [],
       message := "暂存失败" }, [.addAll])
  else if !commitOk then
    ({ success := false, committed := false, push_results := [],
       message := "提交失败" }, [.addAll, .commitMut])
  else
    let cnt := (remotes.filter pushOk).length
    ({ success := decide (cnt = remotes.length), committed := true,
       push_results := remotes.map (fun n => (n, pushOk n)),
       message := "提交并推送完成 " ++ toString cnt ++ "/" ++ toString remotes.length },
     [.addAll, .commitMut] ++ remotes.map GitMutation.pushMut)

/-- The `commit_and_push_all` branch of `SyncOperationWorker.run`
(workers.py lines 524-569): same shape without the `is_git_repo` guard;
returns the final `finished` signal payload. -/
def worker_commit_and_push_all (hasChanges addRaises commitOk : Bool)
    (remotes : List String) (pushOk : String → Bool) :
    (Bool × String) × List GitMutation :=
  if !hasChanges then
    ((false, "没有修改"), [])
  else if addRaises then
    ((false, "暂存失败"), [.addAll])
  else if !commitOk then
    ((false, "提交失败"), [.addAll, .commitMut])
  else
    let cnt := (remotes.filter pushOk).length
    ((decide (cnt = remotes.length),
      "提交并推送完成 " ++ toString cnt ++ "/" ++ toString remotes.length),
     [.addAll, .commitMut] ++ remotes.map GitMutation.pushMut)

/-! ## Helper lemmas -/

theorem beginsWith_refl (l : List Char) : beginsWith l l = true := by
  induction l with
  | nil => rfl
  | cons x xs ih => simp [beginsWith, ih]

theorem containsSeq_append_self (pat l : List Char) :
    containsSeq pat (l ++ pat) = true := by
  induction l with
  | nil =>
    cases pat with
    | nil => rfl
    | cons p ps => simp [containsSeq, beginsWith_refl]
  | cons x xs ih =>
    simp [containsSeq, ih]

theorem splitFirst_append (c : Char) (l t : List Char)
    (h : c ∉ l) : splitFirst c (l ++ c :: t) = some (l, t) := by
  induction l with
  | nil => simp [splitFirst]
  | cons x xs ih =>
    simp only [List.mem_cons, not_or] at h
    have hx : ¬ x = c := fun hxc => h.1 hxc.symm
    simp [splitFirst, hx, ih h.2]

theorem isPrefixOf_append_self (l t : List Char) :
    List.isPrefixOf l (l ++ t) = true := by
  induction l with
  | nil => simp [List.isPrefixOf]
  | cons x xs ih => simp [List.isPrefixOf, ih]

theorem isSuffixOf_append_self (l a : List Char) :
    List.isSuffixOf l (a ++ l) = true := by
  unfold List.isSuffixOf
  rw [List.reverse_append]
  exact isPrefixOf_append_self _ _

theorem filter_length_eq_iff {α : Type} (p : α → Bool) (l : List α) :
    (l.filter p).length = l.length ↔ ∀ a ∈ l, p a = true := by
  induction l with
  | nil => simp
  | cons x xs ih =>
    cases hx : p x with
    | true => simp [List.filter_cons, hx, ih]
    | false =>
      have hlt : (xs.filter p).length ≤ xs.length := List.length_filter_le p xs
      simp only [List.filter_cons, hx, Bool.false_eq_true, if_false, List.length_cons,
        List.mem_cons, forall_eq_or_imp]
      constructor
      · intro h
        omega
      · intro h
        exact h.1.elim

theorem matchGroupTail_exact (owner repo : List Char)
    (ho : owner ≠ []) (ho2 : '/' ∉ owner)
    (hr : repo ≠ []) (hr2 : '/' ∉ repo)
    (hg : gitSuffix.isSuffixOf repo = false) :
    matchGroupTail (owner ++ '/' :: repo) = some (owner ++ '/' :: repo) := by
  unfold matchGroupTail
  rw [splitFirst_append _ _ _ ho2]
  simp [ho, hr, hr2, hg]

theorem matchGroupTail_git (owner repo : List Char)
    (ho : owner ≠ []) (ho2 : '/' ∉ owner)
    (hr : repo ≠ []) (hr2 : '/' ∉ repo) :
    matchGroupTail (owner ++ '/' :: (repo ++ gitSuffix)) = some (owner ++ '/' :: repo) := by
  unfold matchGroupTail
  rw [splitFirst_append _ _ _ ho2]
  have hc : '/' ∉ repo ++ gitSuffix := by
    intro hmem
    rcases List.mem_append.mp hmem with h | h
    · exact hr2 h
    · simp [gitSuffix] at h
  have hs : gitSuffix.isSuffixOf (repo ++ gitSuffix) = true :=
    isSuffixOf_append_self _ _
  have hg4 : gitSuffix.length = 4 := rfl
  have hpos : 0 < repo.length := List.length_pos.mpr hr
  have hlen : 4 < (repo ++ gitSuffix).length := by
    simp only [List.length_append, hg4]
    omega
  have hne : repo ++ gitSuffix ≠ [] := by
    simp [gitSuffix]
  have hidx : (repo ++ gitSuffix).length - 4 = repo.length := by
    simp only [List.length_append, hg4]
    omega
  have htake : (repo ++ gitSuffix).take ((repo ++ gitSuffix).length - 4) = repo := by
    rw [hidx]
    exact List.take_left repo gitSuffix
  simp only [if_neg ho, hc, if_false, hne, hs, hlen, and_self, if_true, htake]

theorem hostThenGroup_eval (sep : Char) (host rest : List Char)
    (h1 : host ≠ []) (h2 : sep ∉ host) :
    hostThenGroup sep (host ++ sep :: rest) = matchGroupTail rest := by
  unfold hostThenGroup
  rw [splitFirst_append _ _ _ h2]
  simp [h1]

theorem searchHttps_cons (x : Char) (xs : List Char) :
    searchHttps (x :: xs) =
      match httpsMatchAt (x :: xs) with
      | some g => some g
      | none => searchHttps xs := rfl

theorem searchSsh_cons (x : Char) (xs : List Char) :
    searchSsh (x :: xs) =
      match sshMatchAt (x :: xs) with
      | some g => some g
      | none => searchSsh xs := rfl

theorem httpsMatchAt_eq_none (l : List Char)
    (h : beginsWith "http".data l = false) : httpsMatchAt l = none := by
  unfold httpsMatchAt
  split
  · simp [beginsWith] at h
  · simp [beginsWith] at h
  · rfl

theorem sshMatchAt_eq_none (l : List Char)
    (h : beginsWith "git@".data l = false) : sshMatchAt l = none := by
  unfold sshMatchAt
  split
  · simp [beginsWith] at h
  · rfl

theorem searchHttps_eq_none (s : List Char)
    (h : containsSeq "http".data s = false) : searchHttps s = none := by
  induction s with
  | nil => rfl
  | cons x xs ih =>
    simp only [containsSeq, Bool.or_eq_false_iff] at h
    rw [searchHttps_cons, httpsMatchAt_eq_none _ h.1]
    exact ih h.2

theorem searchSsh_eq_none (s : List Char)
    (h : containsSeq "git@".data s = false) : searchSsh s = none := by
  induction s with
  | nil => rfl
  | cons x xs ih =>
    simp only [containsSeq, Bool.or_eq_false_iff] at h
    rw [searchSsh_cons, sshMatchAt_eq_none _ h.1]
    exact ih h.2

theorem beginsWith_iff (pat l : List Char) :
    beginsWith pat l = true ↔ ∃ u, l = pat ++ u := by
  induction pat generalizing l with
  | nil => exact ⟨fun _ => ⟨l, rfl⟩, fun _ => rfl⟩
  | cons p ps ih =>
    cases l with
    | nil =>
      constructor
      · intro h
        exact Bool.noConfusion h
      · rintro ⟨u, hu⟩
        exact List.noConfusion hu
    | cons x xs =>
      simp only [beginsWith]
      by_cases hpx : p = x
      · subst hpx
        rw [if_pos rfl, ih]
        constructor
        · rintro ⟨u, hu⟩
          exact ⟨u, by rw [hu]; rfl⟩
        · rintro ⟨u, hu⟩
          injection hu with _ h2
          exact ⟨u, h2⟩
      · rw [if_neg hpx]
        constructor
        · intro h
          exact Bool.noConfusion h
        · rintro ⟨u, hu⟩
          injection hu with h1 _
          exact absurd h1.symm hpx

theorem containsSeq_iff (pat l : List Char) :
    containsSeq pat l = true ↔ ∃ s u, l = s ++ pat ++ u := by
  induction l with
  | nil =>
    show beginsWith pat [] = true ↔ _
    rw [beginsWith_iff]
    constructor
    · rintro ⟨u, hu⟩
      exact ⟨[], u, by simpa using hu⟩
    · rintro ⟨s, u, hu⟩
      rcases List.append_eq_nil.mp (List.append_eq_nil.mp hu.symm).1 with ⟨h1, h2⟩
      exact ⟨[], by simp [h2]⟩
  | cons x xs ih =>
    simp only [containsSeq, Bool.or_eq_true]
    rw [beginsWith_iff, ih]
    constructor
    · rintro (⟨u, hu⟩ | ⟨s, u, hu⟩)
      · exact ⟨[], u, by simpa using hu⟩
      · exact ⟨x :: s, u, by rw [hu]; rfl⟩
    · rintro ⟨s, u, hu⟩
      cases s with
      | nil => exact Or.inl ⟨u, by simpa using hu⟩
      | cons y ys =>
        injection hu with _ h2
        exact Or.inr ⟨ys, u, h2⟩

theorem count_le_of_containsSeq (pat l : List Char) (c : Char)
    (h : containsSeq pat l = true) : pat.count c ≤ l.count c := by
  obtain ⟨s, u, rfl⟩ := (containsSeq_iff pat l).mp h
  simp only [List.count_append]
  omega

theorem containsSeq_colon_head (p a m : List Char)
    (h : ':' ∉ a) : containsSeq (':' :: p) (a ++ m) = containsSeq (':' :: p) m := by
  induction a with
  | nil => rfl
  | cons x xs ih =>
    simp only [List.mem_cons, not_or] at h
    have hx : ¬ (':' : Char) = x := h.1
    simp only [List.cons_append, containsSeq, beginsWith, if_neg hx, Bool.false_or]
    exact ih h.2

theorem no_css_ssh (host owner rrest : List Char)
    (hh : ':' ∉ host) (ho1 : owner ≠ []) (ho : '/' ∉ owner) (hr : '/' ∉ rrest) :
    containsSeq [':', '/', '/']
      ('g' :: 'i' :: 't' :: '@' :: (host ++ ':' :: (owner ++ '/' :: rrest))) = false := by
  have hga : ':' ∉ ('g' :: 'i' :: 't' :: '@' :: host : List Char) := by
    simp only [List.mem_cons, not_or]
    refine ⟨by decide, by decide, by decide, by decide, hh⟩
  have hassoc : ('g' :: 'i' :: 't' :: '@' :: (host ++ ':' :: (owner ++ '/' :: rrest)) : List Char)
      = ('g' :: 'i' :: 't' :: '@' :: host) ++ ':' :: (owner ++ '/' :: rrest) := by
    simp
  rw [hassoc, containsSeq_colon_head _ _ _ hga]
  simp only [containsSeq]
  refine Bool.or_eq_false_iff.mpr ⟨?_, ?_⟩
  · obtain ⟨c, ow, rfl⟩ : ∃ c ow, owner = c :: ow := by
      cases owner with
      | nil => exact absurd rfl ho1
      | cons c ow => exact ⟨c, ow, rfl⟩
    have hc : ¬ ('/' : Char) = c := by
      intro heq
      apply ho
      rw [← heq]
      exact List.mem_cons_self _ _
    simp [beginsWith, hc]
  · by_contra hcc
    rw [Bool.not_eq_false] at hcc
    have hcount := count_le_of_containsSeq _ _ '/' hcc
    have h1 : ([':', '/', '/'] : List Char).count '/' = 2 := by decide
    have h2 : (owner ++ '/' :: rrest).count '/' = 1 := by
      rw [List.count_append, List.count_cons_self, List.count_eq_zero.mpr ho,
        List.count_eq_zero.mpr hr]
    rw [h1, h2] at hcount
    omega

theorem httpsMatchAt_none_no_css (l : List Char)
    (h : containsSeq [':', '/', '/'] l = false) : httpsMatchAt l = none := by
  unfold httpsMatchAt
  split
  · simp [containsSeq, beginsWith] at h
  · simp [containsSeq, beginsWith] at h
  · rfl

theorem searchHttps_none_no_css (s : List Char)
    (h : containsSeq [':', '/', '/'] s = false) : searchHttps s = none := by
  induction s with
  | nil => rfl
  | cons x xs ih =>
    have h' : containsSeq [':', '/', '/'] xs = false := by
      have h2 := h
      simp only [containsSeq, Bool.or_eq_false_iff] at h2
      exact h2.2
    rw [searchHttps_cons, httpsMatchAt_none_no_css _ h]
    exact ih h'

theorem mk_slash (a b : String) : String.mk (a.data ++ '/' :: b.data) = a ++ "/" ++ b := by
  cases a
  cases b
  exact congrArg String.mk (by simp)

theorem searchHttps_head_some (x : Char) (xs g : List Char)
    (h : httpsMatchAt (x :: xs) = some g) : searchHttps (x :: xs) = some g := by
  rw [searchHttps_cons, h]

theorem searchSsh_head_some (x : Char) (xs g : List Char)
    (h : sshMatchAt (x :: xs) = some g) : searchSsh (x :: xs) = some g := by
  rw [searchSsh_cons, h]

theorem contains_already_exists (tag : String) :
    containsSeq "already exists".data ("Release " ++ tag ++ " already exists").data = true := by
  obtain ⟨td⟩ := tag
  have h : ("Release " ++ String.mk td ++ " already exists").data
      = (("Release ".data ++ td) ++ [' ']) ++ "already exists".data := by
    show ("Release ".data ++ td) ++ " already exists".data = _
    rw [show (" already exists").data = ' ' :: ("already exists").data from rfl]
    simp
  rw [h]
  exact containsSeq_append_self _ _

/-! ## Claim theorems -/

/-- Claim C2: the spec requires every mutating git wrapper to report a
subprocess timeout as a failure (the runner deliberately builds a synthetic
`CompletedProcess` with exit code 1 for exactly that purpose), but because
`_run_git` returns that synthetic result instead of raising, the wrappers —
which only translate a raised `CalledProcessError` into `False` — return
`True` on a timed-out command.  This theorem evaluates the code at the
failing input: the synthetic failure result is produced, the git command
did not succeed, yet every wrapper reports success. -/
theorem timeout_reported_as_success :
    run_git true RunOutcome.timedOut =
      Except.ok ⟨1, "", "Command timed out after 10s"⟩ ∧
    gitSucceeded RunOutcome.timedOut = false ∧
    push RunOutcome.timedOut = true ∧
    pull RunOutcome.timedOut = true ∧
    push_tags RunOutcome.timedOut = true ∧
    create_tag RunOutcome.timedOut = true ∧
    commit (RunOutcome.completed 0 "" "") RunOutcome.timedOut = true :=
  ⟨rfl, rfl, rfl, rfl, rfl, rfl, rfl⟩

/-- Claim C6: every status returned by `get_remote_status` has non-negative
ahead/behind (given that the rev-list count output consists of
non-negative integers, which is what git emits), and whenever the count
command fails (non-zero exit, e.g. the remote-tracking ref does not exist)
the status has ahead = 0, behind = 0 and a populated error field. -/
theorem remote_status_nonneg_and_error (r : RevListRes) :
    ((∀ t ∈ r.tokens, 0 ≤ t) →
      0 ≤ (get_remote_status r).ahead ∧ 0 ≤ (get_remote_status r).behind) ∧
    (r.rc ≠ 0 →
      (get_remote_status r).ahead = 0 ∧ (get_remote_status r).behind = 0 ∧
      (get_remote_status r).error ≠ none) := by
  obtain ⟨rc, tokens, se⟩ := r
  by_cases hrc : rc = 0
  · subst hrc
    rcases tokens with _ | ⟨a, _ | ⟨b, _ | ⟨c, ts⟩⟩⟩
    · exact ⟨fun _ => ⟨le_refl 0, le_refl 0⟩, fun hne => absurd rfl hne⟩
    · exact ⟨fun _ => ⟨le_refl 0, le_refl 0⟩, fun hne => absurd rfl hne⟩
    · exact ⟨fun h => ⟨h a (by simp), h b (by simp)⟩, fun hne => absurd rfl hne⟩
    · exact ⟨fun _ => ⟨le_refl 0, le_refl 0⟩, fun hne => absurd rfl hne⟩
  · constructor
    · intro _
      simp only [get_remote_status, if_neg hrc]
      exact ⟨le_refl 0, le_refl 0⟩
    · intro _
      simp [get_remote_status, hrc]

/-- Witness for C6 at the concrete failed command
`⟨1, [], "fatal: ambiguous argument"⟩`. -/
theorem remote_status_nonneg_and_error_witness :
    (0 ≤ (get_remote_status ⟨1, [], "fatal: ambiguous argument"⟩).ahead ∧
     0 ≤ (get_remote_status ⟨1, [], "fatal: ambiguous argument"⟩).behind) ∧
    ((get_remote_status ⟨1, [], "fatal: ambiguous argument"⟩).ahead = 0 ∧
     (get_remote_status ⟨1, [], "fatal: ambiguous argument"⟩).behind = 0 ∧
     (get_remote_status ⟨1, [], "fatal: ambiguous argument"⟩).error ≠ none) := by
  have h := remote_status_nonneg_and_error ⟨1, [], "fatal: ambiguous argument"⟩
  exact ⟨h.1 (by intro t ht; cases ht), h.2 (by decide)⟩

/-- Claim C7: `push_all` (worker) and the push phase of
`commit_and_push_all` (service) report overall success exactly when every
individual remote push succeeded; every remote is pushed to (and gets a
per-remote result entry) regardless of earlier failures. -/
theorem push_all_success_iff_all (remotes : List String) (pushOk : String → Bool) :
    ((worker_push_all remotes pushOk).1.1 = true ↔ ∀ n ∈ remotes, pushOk n = true) ∧
    (worker_push_all remotes pushOk).2 = remotes.map GitMutation.pushMut ∧
    ((commit_and_push_all true true false true remotes pushOk).1.success = true ↔
      ∀ n ∈ remotes, pushOk n = true) ∧
    (commit_and_push_all true true false true remotes pushOk).1.push_results =
      remotes.map (fun n => (n, pushOk n)) := by
  refine ⟨?_, rfl, ?_, rfl⟩
  · simp [worker_push_all, filter_length_eq_iff]
  · simp [commit_and_push_all, filter_length_eq_iff]

/-- Witness for C7: one succeeding and one failing remote. -/
theorem push_all_success_iff_all_witness :
    ((worker_push_all ["origin", "backup"] (fun n => n == "origin")).1.1 = true ↔
      ∀ n ∈ ["origin", "backup"], (n == "origin") = true) ∧
    (worker_push_all ["origin", "backup"] (fun n => n == "origin")).2 =
      ["origin", "backup"].map GitMutation.pushMut ∧
    ((commit_and_push_all true true false true ["origin", "backup"]
        (fun n => n == "origin")).1.success = true ↔
      ∀ n ∈ ["origin", "backup"], (n == "origin") = true) ∧
    (commit_and_push_all true true false true ["origin", "backup"]
        (fun n => n == "origin")).1.push_results =
      ["origin", "backup"].map (fun n => (n, n == "origin")) :=
  push_all_success_iff_all ["origin", "backup"] (fun n => n == "origin")

/-- Claim C8: with no uncommitted local changes, `commit_and_push_all`
(and the worker variant) returns success = false with the
nothing-to-commit message (没有需要提交的修改 / 没有修改) and issues no
mutating git operation at all. -/
theorem nothing_to_commit_noop (addRaises commitOk : Bool)
    (remotes : List String) (pushOk : String → Bool) :
    commit_and_push_all true false addRaises commitOk remotes pushOk =
      ({ success := false, committed := false, push_results := [],
         message := "没有需要提交的修改" }, []) ∧
    worker_commit_and_push_all false addRaises commitOk remotes pushOk =
      ((false, "没有修改"), []) :=
  ⟨rfl, rfl⟩

/-- Claim C9: platform classification of remote URLs: the four specified
examples, and the generic github > gitee > gitea/git. > unknown priority
of the (case-insensitive) substring checks. -/
theorem detect_platform_priority :
    detect_platform_from_url "https://github.com/a/b.git" = some "github" ∧
    detect_platform_from_url "https://gitee.com/a/b.git" = some "gitee" ∧
    detect_platform_from_url "https://git.example.com/a/b.git" = some "gitea" ∧
    detect_platform_from_url "https://example.com/a/b" = none ∧
    (∀ url : String,
      containsSeq "github.com".data (url.data.map Char.toLower) = true →
      detect_platform_from_url url = some "github") ∧
    (∀ url : String,
      containsSeq "github.com".data (url.data.map Char.toLower) = false →
      containsSeq "gitee.com".data (url.data.map Char.toLower) = true →
      detect_platform_from_url url = some "gitee") ∧
    (∀ url : String,
      containsSeq "github.com".data (url.data.map Char.toLower) = false →
      containsSeq "gitee.com".data (url.data.map Char.toLower) = false →
      (containsSeq "gitea".data (url.data.map Char.toLower) ||
       containsSeq "git.".data (url.data.map Char.toLower)) = true →
      detect_platform_from_url url = some "gitea") := by
  refine ⟨by decide, by decide, by decide, by decide, ?_, ?_, ?_⟩
  · intro url h
    simp [detect_platform_from_url, h]
  · intro url h1 h2
    simp [detect_platform_from_url, h1, h2]
  · intro url h1 h2 h3
    simp [detect_platform_from_url, h1, h2, h3]

/-- Witness for C9: a URL matched only by the generic gitea branch. -/
theorem detect_platform_priority_witness :
    detect_platform_from_url "https://code.GITEA.example.org/x/y" = some "gitea" :=
  detect_platform_priority.2.2.2.2.2.2 "https://code.GITEA.example.org/x/y"
    (by decide) (by decide) (by decide)

/-- Claim C10: when the rev-list count command fails or does not produce
exactly two fields, `is_ahead_of_remote` returns `(0, 0)` (its return type
has no error channel), so `get_quick_status` reports "synced" for a clean
repository with no upstream, indistinguishable from a truly synchronized
one. -/
theorem silent_sync_on_revlist_failure (r : RevListRes)
    (h : r.rc ≠ 0 ∨ r.tokens.length ≠ 2) :
    is_ahead_of_remote r = (0, 0) ∧ get_quick_status true true false r = "synced" := by
  obtain ⟨rc, tokens, se⟩ := r
  have hab : is_ahead_of_remote ⟨rc, tokens, se⟩ = (0, 0) := by
    by_cases hrc : rc = 0
    · subst hrc
      rcases h with h | h
      · exact absurd rfl h
      · rcases tokens with _ | ⟨a, _ | ⟨b, _ | ⟨c, ts⟩⟩⟩
        · rfl
        · rfl
        · exact absurd rfl h
        · rfl
    · simp [is_ahead_of_remote, hrc]
  refine ⟨hab, ?_⟩
  simp [get_quick_status, hab]

/-- Witness for C10: exit code 128 (unknown revision), clean repository. -/
theorem silent_sync_on_revlist_failure_witness :
    is_ahead_of_remote ⟨128, [], ""⟩ = (0, 0) ∧
    get_quick_status true true false ⟨128, [], ""⟩ = "synced" :=
  silent_sync_on_revlist_failure ⟨128, [], ""⟩ (Or.inl (by decide))

/-- Claim C1 (amended): when a release for the tag already exists, every
publisher's `publish` returns success = false with a message containing
"already exists" and performs no release creation and no asset upload;
however only the GitHub publisher populates the release URL field of the
result (from the existing release's `html_url`) — the Gitee and Gitea
publishers leave the `url` key unset. -/
theorem publish_existing_release_short_circuit :
    (∀ repo tag asset_path : String, ∀ e : GHRelease,
      ∀ created : Option GHRelease, ∀ uploadOk : Bool,
      (github_publish repo tag asset_path (some e) created uploadOk).1.success = false ∧
      containsSeq "already exists".data
        (github_publish repo tag asset_path (some e) created uploadOk).1.message.data = true ∧
      (github_publish repo tag asset_path (some e) created uploadOk).1.url = some e.html_url ∧
      (github_publish repo tag asset_path (some e) created uploadOk).2 =
        [PubAction.checkExisting]) ∧
    (∀ repo tag asset_path : String, ∀ e : IdRelease,
      ∀ created : Option IdRelease, ∀ uploadOk : Bool,
      (gitee_publish repo tag asset_path (some e) created uploadOk).1.success = false ∧
      containsSeq "already exists".data
        (gitee_publish repo tag asset_path (some e) created uploadOk).1.message.data = true ∧
      (gitee_publish repo tag asset_path (some e) created uploadOk).1.url = none ∧
      (gitee_publish repo tag asset_path (some e) created uploadOk).2 =
        [PubAction.checkExisting]) ∧
    (∀ repo tag asset_path : String, ∀ e : IdRelease,
      ∀ created : Option IdRelease, ∀ uploadOk : Bool,
      (gitea_publish repo tag asset_path (some e) created uploadOk).1.success = false ∧
      containsSeq "already exists".data
        (gitea_publish repo tag asset_path (some e) created uploadOk).1.message.data = true ∧
      (gitea_publish repo tag asset_path (some e) created uploadOk).1.url = none ∧
      (gitea_publish repo tag asset_path (some e) created uploadOk).2 =
        [PubAction.checkExisting]) := by
  refine ⟨?_, ?_, ?_⟩ <;>
    · intro repo tag asset_path e created uploadOk
      exact ⟨rfl, contains_already_exists tag, rfl, rfl⟩

/-- Counterexample for C1 as stated: the Gitee publisher, on an already
existing release, returns success = false but does not populate the
release URL field of the result (the `url` key is never assigned). -/
theorem gitee_existing_release_url_absent :
    (gitee_publish "owner/repo" "v1.0.0" "pkg.zip" (some ⟨some 7⟩) none false).1.success
      = false ∧
    (gitee_publish "owner/repo" "v1.0.0" "pkg.zip" (some ⟨some 7⟩) none false).1.url
      = none :=
  ⟨rfl, rfl⟩

/-- Claim C5: in every publisher, a failed release creation prevents any
asset upload and yields success = false with a diagnostic message; success
is reported only when the upload succeeded or no asset was requested
(assuming the well-formedness guarantee of the platform APIs that a
created release carries a non-empty `upload_url` / nonzero `id`); and a
created
release whose upload failed yields success = false with the
created-but-upload-failed message. -/
theorem publish_upload_gating :
    (∀ repo tag asset_path : String, ∀ existing created : Option GHRelease,
      ∀ uploadOk : Bool,
      (∀ r, created = some r → strOptTruthy r.upload_url = true) →
      ((existing = none → created = none →
        (github_publish repo tag asset_path existing created uploadOk).1.success = false ∧
        (github_publish repo tag asset_path existing created uploadOk).1.message =
          "Failed to create release" ∧
        PubAction.uploadAsset ∉
          (github_publish repo tag asset_path existing created uploadOk).2) ∧
      ((github_publish repo tag asset_path existing created uploadOk).1.success = true →
        uploadOk = true ∨ asset_path.isEmpty = true) ∧
      (∀ r, existing = none → created = some r → asset_path.isEmpty = false →
        uploadOk = false →
        (github_publish repo tag asset_path existing created uploadOk).1.success = false ∧
        (github_publish repo tag asset_path existing created uploadOk).1.message =
          "Release created but asset upload failed"))) ∧
    (∀ repo tag asset_path : String, ∀ existing created : Option IdRelease,
      ∀ uploadOk : Bool,
      (∀ r, created = some r → idTruthy r.id = true) →
      ((existing = none → created = none →
        (gitee_publish repo tag asset_path existing created uploadOk).1.success = false ∧
        (gitee_publish repo tag asset_path existing created uploadOk).1.message =
          "Failed to create release" ∧
        PubAction.uploadAsset ∉
          (gitee_publish repo tag asset_path existing created uploadOk).2) ∧
      ((gitee_publish repo tag asset_path existing created uploadOk).1.success = true →
        uploadOk = true ∨ asset_path.isEmpty = true) ∧
      (∀ r, existing = none → created = some r → asset_path.isEmpty = false →
        uploadOk = false →
        (gitee_publish repo tag asset_path existing created uploadOk).1.success = false ∧
        (gitee_publish repo tag asset_path existing created uploadOk).1.message =
          "Release created but asset upload failed"))) ∧
    (∀ repo tag asset_path : String, ∀ existing created : Option IdRelease,
      ∀ uploadOk : Bool,
      (∀ r, created = some r → idTruthy r.id = true) →
      ((existing = none → created = none →
        (gitea_publish repo tag asset_path existing created uploadOk).1.success = false ∧
        (gitea_publish repo tag asset_path existing created uploadOk).1.message =
          "Failed to create release" ∧
        PubAction.uploadAsset ∉
          (gitea_publish repo tag asset_path existing created uploadOk).2) ∧
      ((gitea_publish repo tag asset_path existing created uploadOk).1.success = true →
        uploadOk = true ∨ asset_path.isEmpty = true) ∧
      (∀ r, existing = none → created = some r → asset_path.isEmpty = false →
        uploadOk = false →
        (gitea_publish repo tag asset_path existing created uploadOk).1.success = false ∧
        (gitea_publish repo tag asset_path existing created uploadOk).1.message =
          "Release created but asset upload failed"))) := by
  refine ⟨?_, ?_, ?_⟩
  · intro repo tag asset_path existing created uploadOk hwf
    refine ⟨?_, ?_, ?_⟩
    · intro he hc
      subst he
      subst hc
      exact ⟨rfl, rfl, by simp [github_publish]⟩
    · intro hs
      cases existing with
      | some e => simp [github_publish] at hs
      | none =>
        cases created with
        | none => simp [github_publish] at hs
        | some r =>
          have hu : strOptTruthy r.upload_url = true := hwf r rfl
          cases ha : asset_path.isEmpty with
          | true => exact Or.inr rfl
          | false =>
            cases huo : uploadOk with
            | true => exact Or.inl rfl
            | false => simp [github_publish, hu, ha, huo] at hs
    · intro r he hc ha huo
      subst he
      subst hc
      subst huo
      have hu : strOptTruthy r.upload_url = true := hwf r rfl
      exact ⟨by simp [github_publish, hu, ha], by simp [github_publish, hu, ha]⟩
  · intro repo tag asset_path existing created uploadOk hwf
    refine ⟨?_, ?_, ?_⟩
    · intro he hc
      subst he
      subst hc
      exact ⟨rfl, rfl, by simp [gitee_publish]⟩
    · intro hs
      cases existing with
      | some e => simp [gitee_publish] at hs
      | none =>
        cases created with
        | none => simp [gitee_publish] at hs
        | some r =>
          have hu : idTruthy r.id = true := hwf r rfl
          cases ha : asset_path.isEmpty with
          | true => exact Or.inr rfl
          | false =>
            cases huo : uploadOk with
            | true => exact Or.inl rfl
            | false => simp [gitee_publish, hu, ha, huo] at hs
    · intro r he hc ha huo
      subst he
      subst hc
      subst huo
      have hu : idTruthy r.id = true := hwf r rfl
      exact ⟨by simp [gitee_publish, hu, ha], by simp [gitee_publish, hu, ha]⟩
  · intro repo tag asset_path existing created uploadOk hwf
    refine ⟨?_, ?_, ?_⟩
    · intro he hc
      subst he
      subst hc
      exact ⟨rfl, rfl, by simp [gitea_publish]⟩
    · intro hs
      cases existing with
      | some e => simp [gitea_publish] at hs
      | none =>
        cases created with
        | none => simp [gitea_publish] at hs
        | some r =>
          have hu : idTruthy r.id = true := hwf r rfl
          cases ha : asset_path.isEmpty with
          | true => exact Or.inr rfl
          | false =>
            cases huo : uploadOk with
            | true => exact Or.inl rfl
            | false => simp [gitea_publish, hu, ha, huo] at hs
    · intro r he hc ha huo
      subst he
      subst hc
      subst huo
      have hu : idTruthy r.id = true := hwf r rfl
      exact ⟨by simp [gitea_publish, hu, ha], by simp [gitea_publish, hu, ha]⟩

/-- Witness for C5: GitHub publisher, release created, asset requested,
upload fails. -/
theorem publish_upload_gating_witness :
    (github_publish "o/r" "v1" "pkg.zip" none
      (some ⟨"https://u", some "https://up"⟩) false).1.success = false ∧
    (github_publish "o/r" "v1" "pkg.zip" none
      (some ⟨"https://u", some "https://up"⟩) false).1.message =
      "Release created but asset upload failed" := by
  have h := publish_upload_gating
  exact (h.1 "o/r" "v1" "pkg.zip" none (some ⟨"https://u", some "https://up"⟩) false
    (by intro r hr; cases hr; rfl)).2.2 ⟨"https://u", some "https://up"⟩
    rfl rfl (by decide) rfl

/-- Claim C3 (code_bug evidence): in `publish_to_platforms`,
(a) a requested gitea platform with token and repo configured but no base
URL produces NO entry in the result map (`get_publisher` returns `None`
and the loop records nothing, where the claim/spec require a
success = false entry), and
(b) a fully configured github platform raises `TypeError`
(`PublisherRegistry.get` forwards the always-present `url` keyword
argument to `GitHubPublisher.__init__`, which accepts only `token`),
aborting the whole loop; while the missing-token guard does record the
claimed entry. -/
theorem publish_to_platforms_gaps :
    publish_to_platforms (fun _ => "tok") (fun _ => "owner/repo") ""
        (fun p => { success := true, platform := p, repo := "owner/repo",
                    message := "", url := none }) ["gitea"] = .ok [] ∧
    publish_to_platforms (fun _ => "tok") (fun _ => "owner/repo") ""
        (fun p => { success := true, platform := p, repo := "owner/repo",
                    message := "", url := none }) ["github", "gitee"] =
      .error "TypeError: __init__() got an unexpected keyword argument" ∧
    publish_to_platforms (fun _ => "") (fun _ => "owner/repo") ""
        (fun p => { success := true, platform := p, repo := "owner/repo",
                    message := "", url := none }) ["gitee"] =
      .ok [("gitee", { success := false, platform := "gitee", repo := "",
                       message := "未配置Token", url := none })] :=
  ⟨rfl, rfl, rfl⟩

/-- Claim C4 (amended): `parse_repo_from_url` returns exactly `owner/repo`
for every URL of shape `https://host/owner/repo(.git)?` or
`git@host:owner/repo(.git)?` (components nonempty and separator-free, repo
not itself ending in `.git`), but the HTTPS regex also accepts the plain
`http` scheme; since matching is an end-anchored search, a string
containing no occurrence of `http` and no `git@` returns null. -/
theorem parse_repo_from_url_shapes :
    (∀ host owner repo : String,
      host.data ≠ [] → '/' ∉ host.data →
      owner.data ≠ [] → '/' ∉ owner.data →
      repo.data ≠ [] → '/' ∉ repo.data →
      gitSuffix.isSuffixOf repo.data = false →
      parse_repo_from_url ("https://" ++ host ++ "/" ++ owner ++ "/" ++ repo) =
          some (owner ++ "/" ++ repo) ∧
      parse_repo_from_url ("https://" ++ host ++ "/" ++ owner ++ "/" ++ repo ++ ".git") =
          some (owner ++ "/" ++ repo) ∧
      parse_repo_from_url ("http://" ++ host ++ "/" ++ owner ++ "/" ++ repo) =
          some (owner ++ "/" ++ repo)) ∧
    (∀ host owner repo : String,
      host.data ≠ [] → ':' ∉ host.data →
      owner.data ≠ [] → '/' ∉ owner.data →
      repo.data ≠ [] → '/' ∉ repo.data →
      gitSuffix.isSuffixOf repo.data = false →
      parse_repo_from_url ("git@" ++ host ++ ":" ++ owner ++ "/" ++ repo) =
          some (owner ++ "/" ++ repo) ∧
      parse_repo_from_url ("git@" ++ host ++ ":" ++ owner ++ "/" ++ repo ++ ".git") =
          some (owner ++ "/" ++ repo)) ∧
    (∀ url : String,
      containsSeq "http".data url.data = false →
      containsSeq "git@".data url.data = false →
      parse_repo_from_url url = none) := by
  refine ⟨?_, ?_, ?_⟩
  · intro host owner repo hh1 hh2 ho1 ho2 hr1 hr2 hg
    obtain ⟨hd⟩ := host
    obtain ⟨od⟩ := owner
    obtain ⟨rd⟩ := repo
    refine ⟨?_, ?_, ?_⟩
    · have hdata : ("https://" ++ String.mk hd ++ "/" ++ String.mk od ++ "/"
          ++ String.mk rd).data
          = 'h' :: 't' :: 't' :: 'p' :: 's' :: ':' :: '/' :: '/' :: (hd ++ '/' :: (od ++ '/' :: rd)) := by
        show (((("https://".data ++ hd) ++ ['/']) ++ od) ++ ['/']) ++ rd = _
        rw [show "https://".data = ['h','t','t','p','s',':','/','/'] from rfl]
        simp
      have hmatch : httpsMatchAt
          ('h' :: 't' :: 't' :: 'p' :: 's' :: ':' :: '/' :: '/' :: (hd ++ '/' :: (od ++ '/' :: rd)))
          = some (od ++ '/' :: rd) := by
        show hostThenGroup '/' (hd ++ '/' :: (od ++ '/' :: rd)) = _
        rw [hostThenGroup_eval '/' hd _ hh1 hh2]
        exact matchGroupTail_exact od rd ho1 ho2 hr1 hr2 hg
      unfold parse_repo_from_url
      rw [hdata, searchHttps_head_some _ _ _ hmatch]
      exact congrArg some (mk_slash (String.mk od) (String.mk rd))
    · have hdata : ("https://" ++ String.mk hd ++ "/" ++ String.mk od ++ "/"
          ++ String.mk rd ++ ".git").data
          = 'h' :: 't' :: 't' :: 'p' :: 's' :: ':' :: '/' :: '/' ::
            (hd ++ '/' :: (od ++ '/' :: (rd ++ gitSuffix))) := by
        show ((((("https://".data ++ hd) ++ ['/']) ++ od) ++ ['/']) ++ rd) ++ gitSuffix = _
        rw [show "https://".data = ['h','t','t','p','s',':','/','/'] from rfl]
        simp
      have hmatch : httpsMatchAt
          ('h' :: 't' :: 't' :: 'p' :: 's' :: ':' :: '/' :: '/' ::
            (hd ++ '/' :: (od ++ '/' :: (rd ++ gitSuffix))))
          = some (od ++ '/' :: rd) := by
        show hostThenGroup '/' (hd ++ '/' :: (od ++ '/' :: (rd ++ gitSuffix))) = _
        rw [hostThenGroup_eval '/' hd _ hh1 hh2]
        exact matchGroupTail_git od rd ho1 ho2 hr1 hr2
      unfold parse_repo_from_url
      rw [hdata, searchHttps_head_some _ _ _ hmatch]
      exact congrArg some (mk_slash (String.mk od) (String.mk rd))
    · have hdata : ("http://" ++ String.mk hd ++ "/" ++ String.mk od ++ "/"
          ++ String.mk rd).data
          = 'h' :: 't' :: 't' :: 'p' :: ':' :: '/' :: '/' :: (hd ++ '/' :: (od ++ '/' :: rd)) := by
        show (((("http://".data ++ hd) ++ ['/']) ++ od) ++ ['/']) ++ rd = _
        rw [show "http://".data = ['h','t','t','p',':','/','/'] from rfl]
        simp
      have hmatch : httpsMatchAt
          ('h' :: 't' :: 't' :: 'p' :: ':' :: '/' :: '/' :: (hd ++ '/' :: (od ++ '/' :: rd)))
          = some (od ++ '/' :: rd) := by
        show hostThenGroup '/' (hd ++ '/' :: (od ++ '/' :: rd)) = _
        rw [hostThenGroup_eval '/' hd _ hh1 hh2]
        exact matchGroupTail_exact od rd ho1 ho2 hr1 hr2 hg
      unfold parse_repo_from_url
      rw [hdata, searchHttps_head_some _ _ _ hmatch]
      exact congrArg some (mk_slash (String.mk od) (String.mk rd))
  · intro host owner repo hh1 hh2 ho1 ho2 hr1 hr2 hg
    obtain ⟨hd⟩ := host
    obtain ⟨od⟩ := owner
    obtain ⟨rd⟩ := repo
    constructor
    · have hdata : ("git@" ++ String.mk hd ++ ":" ++ String.mk od ++ "/"
          ++ String.mk rd).data
          = 'g' :: 'i' :: 't' :: '@' :: (hd ++ ':' :: (od ++ '/' :: rd)) := by
        show (((("git@".data ++ hd) ++ [':']) ++ od) ++ ['/']) ++ rd = _
        rw [show "git@".data = ['g','i','t','@'] from rfl]
        simp
      have hmatch : sshMatchAt ('g' :: 'i' :: 't' :: '@' :: (hd ++ ':' :: (od ++ '/' :: rd)))
          = some (od ++ '/' :: rd) := by
        show hostThenGroup ':' (hd ++ ':' :: (od ++ '/' :: rd)) = _
        rw [hostThenGroup_eval ':' hd _ hh1 hh2]
        exact matchGroupTail_exact od rd ho1 ho2 hr1 hr2 hg
      have hcss := no_css_ssh hd od rd hh2 ho1 ho2 hr2
      unfold parse_repo_from_url
      rw [hdata, searchHttps_none_no_css _ hcss, searchSsh_head_some _ _ _ hmatch]
      exact congrArg some (mk_slash (String.mk od) (String.mk rd))
    · have hdata : ("git@" ++ String.mk hd ++ ":" ++ String.mk od ++ "/"
          ++ String.mk rd ++ ".git").data
          = 'g' :: 'i' :: 't' :: '@' :: (hd ++ ':' :: (od ++ '/' :: (rd ++ gitSuffix))) := by
        show ((((("git@".data ++ hd) ++ [':']) ++ od) ++ ['/']) ++ rd) ++ gitSuffix = _
        rw [show "git@".data = ['g','i','t','@'] from rfl]
        simp
      have hmatch : sshMatchAt
          ('g' :: 'i' :: 't' :: '@' :: (hd ++ ':' :: (od ++ '/' :: (rd ++ gitSuffix))))
          = some (od ++ '/' :: rd) := by
        show hostThenGroup ':' (hd ++ ':' :: (od ++ '/' :: (rd ++ gitSuffix))) = _
        rw [hostThenGroup_eval ':' hd _ hh1 hh2]
        exact matchGroupTail_git od rd ho1 ho2 hr1 hr2
      have hslash : '/' ∉ rd ++ gitSuffix := by
        intro hmem
        rcases List.mem_append.mp hmem with hm | hm
        · exact hr2 hm
        · simp [gitSuffix] at hm
      have hcss := no_css_ssh hd od (rd ++ gitSuffix) hh2 ho1 ho2 hslash
      unfold parse_repo_from_url
      rw [hdata, searchHttps_none_no_css _ hcss, searchSsh_head_some _ _ _ hmatch]
      exact congrArg some (mk_slash (String.mk od) (String.mk rd))
  · intro url h1 h2
    unfold parse_repo_from_url
    rw [searchHttps_eq_none _ h1, searchSsh_eq_none _ h2]
    rfl

/-- Counterexample for C4 as stated: a plain-`http` URL is none of the four
listed shapes, so the claim requires null, but the regex alternation
`https?` also accepts it and the function returns `owner/repo`. -/
theorem parse_repo_http_scheme_counterexample :
    parse_repo_from_url "http://host/owner/repo" = some "owner/repo" := rfl

/-- Witness for C4 instantiated at concrete URLs. -/
theorem parse_repo_from_url_shapes_witness :
    parse_repo_from_url ("https://" ++ "github.com" ++ "/" ++ "user" ++ "/" ++ "repo") =
      some ("user" ++ "/" ++ "repo") ∧
    parse_repo_from_url ("git@" ++ "gitee.com" ++ ":" ++ "user" ++ "/" ++ "repo" ++ ".git") =
      some ("user" ++ "/" ++ "repo") ∧
    parse_repo_from_url "no remote configured" = none := by
  have h := parse_repo_from_url_shapes
  refine ⟨(h.1 "github.com" "user" "repo" (by decide) (by decide) (by decide) (by decide)
      (by decide) (by decide) (by decide)).1,
    (h.2.1 "gitee.com" "user" "repo" (by decide) (by decide) (by decide) (by decide)
      (by decide) (by decide) (by decide)).2,
    h.2.2 "no remote configured" (by decide) (by decide)⟩

end GVM
